import Mathlib

/-!
Shallow embedding of the GymTracker backend (Django/DRF app `api`:
`models.py`, `serializers.py`, `mixins.py`, `views.py`).

Modelling choices:
* Python strings are lists of Unicode code points (`List Char`); the
  `str.lower` builtin is `Char.toLower` mapped over the list (the code only
  lowercases usernames, and the repository exercises ASCII usernames).
* Dates are natural numbers; the code only compares dates for equality.
* Decimal weights (`DecimalField(max_digits=5, decimal_places=2)`) are
  integers counting hundredths, so the two-fractional-digit constraint is
  representational and `max_digits=5` becomes `value ≤ 99999` hundredths.
* The database is a list of records threaded explicitly through every
  operation; an operation that can leave a changed store returns the store
  it persisted together with an optional error (a raised exception leaves
  the store exactly as it was at the moment of the raise).
* The external password strength checker and hasher are parameters.
-/

namespace GymTracker

/-- Python strings as sequences of code points. -/
abbrev PyStr := List Char

/-- Embed a Lean string literal as a Python string. -/
def ps (s : String) : PyStr := s.toList

/-- Python `str.lower` (ASCII-faithful model). -/
def pyLower (s : PyStr) : PyStr := s.map Char.toLower

/-- Outcomes surfaced by the API layer: DRF `NotFound` (HTTP 404) and DRF
`ValidationError` (HTTP 400), the latter either with a bare message or with
a map from field name to message. -/
inductive ApiError where
  | notFound (detail : PyStr)
  | validationMsg (detail : PyStr)
  | validationFields (detail : List (PyStr × PyStr))
deriving DecidableEq

/-- Model of `api.models.User`: the custom user with the protein counter fields.
`passwordHash` stands for the hashed credential column. -/
structure UserRec where
  id : Nat
  username : PyStr
  passwordHash : PyStr
  protein_goal : Int
  todays_protein : Int
  protein_last_update : Nat
deriving DecidableEq

/-- Model of `api.models.Workout`. -/
structure WorkoutRec where
  id : Nat
  name : PyStr
  owner : Nat
deriving DecidableEq

/-- Model of `api.models.Exercise` (`weight` in hundredths). -/
structure ExerciseRec where
  id : Nat
  name : PyStr
  sets : Int
  reps : Int
  weight : Int
  workout : Nat
deriving DecidableEq

/-- Model of `User.reset_todays_protein`: zero the counter and stamp today when the
last update was on a different date, persisting exactly
`update_fields` naming `todays_protein` and `protein_last_update`;
otherwise no write at all.  Returns the user object together with the list of persisted
fields (`none` when no save happened). -/
def reset_todays_protein (today : Nat) (u : UserRec) :
    UserRec × Option (List PyStr) :=
  if u.protein_last_update ≠ today then
    ({ u with todays_protein := 0, protein_last_update := today },
     some [ps "todays_protein", ps "protein_last_update"])
  else
    (u, none)

/-- Model of `User.add_protein`: reject a non-positive amount, reject a sum above
500, otherwise add and persist.  Both raises happen before any mutation,
so on error the returned store state is the input state. -/
def add_protein (u : UserRec) (protein_to_add : Int) :
    UserRec × Option ApiError :=
  if protein_to_add ≤ 0 then
    (u, some (.validationMsg (ps "Protein amount must be greater than 0.")))
  else if 500 < u.todays_protein + protein_to_add then
    (u, some (.validationMsg (ps "Todays protein cannot be greater than 500.")))
  else
    ({ u with todays_protein := u.todays_protein + protein_to_add }, none)

/-- A JSON scalar as it arrives in `request.data` for `protein_to_add`. -/
inductive JsonVal where
  | jint (n : Int)
  | jstr (s : PyStr)
deriving DecidableEq

/-- Python `int(...)` coercion as applied in
`ProteinRetrieveUpdateAPIView.partial_update`: an integer passes through,
a string is parsed as a signed decimal integer, anything unparsable is a
`ValueError`. -/
def pyInt (v : JsonVal) : Option Int :=
  match v with
  | .jint n => some n
  | .jstr s => (String.mk s).toInt?

/-- The body of a PATCH to the protein endpoint.  `todays_protein` is
`read_only` in `ProteinSerializer`, so the only writable serializer field
is `protein_goal`; `protein_to_add` is read from the raw request data. -/
structure ProteinPatch where
  protein_to_add : Option JsonVal
  protein_goal : Option Int
deriving DecidableEq

/-- The serializer-side part of a protein PATCH
(`UpdateModelMixin.update` with `ProteinSerializer`): `get_object` runs the
lazy reset, then `protein_goal` is validated against the model validators
`MinValueValidator(1)` / `MaxValueValidator(500)`; on success the instance
is saved (the model `save` lowercases the username). -/
def protein_serializer_update (today : Nat) (u : UserRec)
    (goal : Option Int) : UserRec × Option ApiError :=
  let u1 := (reset_todays_protein today u).1
  match goal with
  | none => ({ u1 with username := pyLower u1.username }, none)
  | some g =>
      if g < 1 then
        (u1, some (.validationFields
          [(ps "protein_goal", ps "Ensure this value is greater than or equal to 1.")]))
      else if 500 < g then
        (u1, some (.validationFields
          [(ps "protein_goal", ps "Ensure this value is less than or equal to 500.")]))
      else
        ({ u1 with protein_goal := g, username := pyLower u1.username }, none)

/-- Model of the PATCH handler of `ProteinRetrieveUpdateAPIView`: when `protein_to_add`
is present it is coerced with `int(...)` (`ValidationError` on failure),
then `get_object()` runs the lazy reset and `add_protein` is applied (and
persisted); only then does the standard serializer update run, which
validates and applies `protein_goal`. -/
def protein_patch_update (today : Nat) (u : UserRec) (patch : ProteinPatch) :
    UserRec × Option ApiError :=
  match patch.protein_to_add with
  | none => protein_serializer_update today u patch.protein_goal
  | some raw =>
      match pyInt raw with
      | none =>
          (u, some (.validationMsg (ps "Protein amount must be a valid number.")))
      | some n =>
          let u1 := (reset_todays_protein today u).1
          let r := add_protein u1 n
          match r.2 with
          | some e => (r.1, some e)
          | none => protein_serializer_update today r.1 patch.protein_goal

/-- Model of `WorkoutAccessMixin.get_workout`: fetch the workout by primary key,
`NotFound` when the row is missing, and the same `NotFound` when the row
belongs to a different user. -/
def get_workout (wdb : List WorkoutRec) (workout_id : Nat) (requester : Nat) :
    Except ApiError WorkoutRec :=
  match wdb.find? (fun w => w.id == workout_id) with
  | none => .error (.notFound (ps "Workout not found"))
  | some w =>
      if w.owner ≠ requester then .error (.notFound (ps "Workout not found"))
      else .ok w

/-- Model of `WorkoutDestroyAPIView`: the queryset is pre-filtered to the
requester, so the generic `get_object` lookup raises the stock 404 both
when the workout does not exist and when it is owned by someone else;
on success the row is deleted. -/
def workout_destroy (wdb : List WorkoutRec) (workout_id : Nat)
    (requester : Nat) : List WorkoutRec × Option ApiError :=
  match (wdb.filter (fun w => w.owner == requester)).find?
      (fun w => w.id == workout_id) with
  | none => (wdb, some (.notFound (ps "Not found.")))
  | some w => (wdb.filter (fun x => x.id ≠ w.id), none)

/-- Model of `WorkoutListCreateAPIView.get_queryset`: workouts of the requester. -/
def workout_list (wdb : List WorkoutRec) (requester : Nat) :
    List WorkoutRec :=
  wdb.filter (fun w => w.owner == requester)

/-- Model of `WorkoutSerializer` field validation: `name` is a required
`CharField(max_length=30)` with blank values rejected. -/
def validate_workout_name (name : PyStr) : List (PyStr × PyStr) :=
  (if name.length = 0 then
    [(ps "name", ps "This field may not be blank.")] else []) ++
  (if 30 < name.length then
    [(ps "name", ps "Ensure this field has no more than 30 characters.")] else [])

/-- Model of `WorkoutListCreateAPIView` POST: validate the body, then
`perform_create` saves with `owner=self.request.user`.  The `owner` field
is `read_only` in `WorkoutSerializer`, so an owner supplied in the body is
dropped before validation and never reaches the saved record. -/
def workout_create (wdb : List WorkoutRec) (requester : Nat) (name : PyStr)
    (body_owner : Option Nat) (new_id : Nat) :
    List WorkoutRec × Option ApiError × Option WorkoutRec :=
  match validate_workout_name name with
  | [] =>
      let w : WorkoutRec := { id := new_id, name := name, owner := requester }
      (wdb ++ [w], none, some w)
  | errs => (wdb, some (.validationFields errs), none)

/-- Model of `ExerciseListCreateAPIView.get_queryset`: resolve the workout through
`get_workout` (its `NotFound` propagates), then the exercises of that
workout. -/
def exercise_list (wdb : List WorkoutRec) (edb : List ExerciseRec)
    (workout_id : Nat) (requester : Nat) :
    Except ApiError (List ExerciseRec) :=
  match get_workout wdb workout_id requester with
  | .error e => .error e
  | .ok w => .ok (edb.filter (fun e => e.workout == w.id))

/-- Model of `ExerciseRetrieveUpdateDestroyAPIView.get_object`: the queryset is the
exercises of the resolved workout (`get_workout` may raise `NotFound`),
then the generic lookup by `exercise_id` raises the stock 404 when no such
row is in the scoped queryset. -/
def exercise_lookup (wdb : List WorkoutRec) (edb : List ExerciseRec)
    (workout_id : Nat) (exercise_id : Nat) (requester : Nat) :
    Except ApiError ExerciseRec :=
  match get_workout wdb workout_id requester with
  | .error e => .error e
  | .ok w =>
      match (edb.filter (fun e => e.workout == w.id)).find?
          (fun e => e.id == exercise_id) with
      | none => .error (.notFound (ps "Not found."))
      | some e => .ok e

/-- The validated data of an exercise create request: `name`, `sets` and
`reps` are required serializer fields, `weight` is optional because the
model field has a default. -/
structure ExerciseCreateData where
  name : PyStr
  sets : Int
  reps : Int
  weight : Option Int
deriving DecidableEq

/-- Model of `ExerciseSerializer` field validation on create, from the model
validators: `name` a non-blank `CharField(max_length=30)`, `sets` and
`reps` bounded by `MinValueValidator(1)` / `MaxValueValidator(99)`,
`weight` a `DecimalField(max_digits=5, decimal_places=2)` with
a minimum-value validator at 0.00 — in hundredths, `0 ≤ w ≤ 99999`. -/
def validate_exercise_create (d : ExerciseCreateData) :
    List (PyStr × PyStr) :=
  (if d.name.length = 0 then
    [(ps "name", ps "This field may not be blank.")] else []) ++
  (if 30 < d.name.length then
    [(ps "name", ps "Ensure this field has no more than 30 characters.")] else []) ++
  (if d.sets < 1 then
    [(ps "sets", ps "Ensure this value is greater than or equal to 1.")] else []) ++
  (if 99 < d.sets then
    [(ps "sets", ps "Ensure this value is less than or equal to 99.")] else []) ++
  (if 99 < d.reps then
    [(ps "reps", ps "Ensure this value is less than or equal to 99.")] else []) ++
  (if d.reps < 1 then
    [(ps "reps", ps "Ensure this value is greater than or equal to 1.")] else []) ++
  (match d.weight with
   | none => []
   | some w =>
      (if w < 0 then
        [(ps "weight", ps "Ensure this value is greater than or equal to 0.")] else []) ++
      (if 99999 < w then
        [(ps "weight", ps "Ensure that there are no more than 5 digits in total.")] else []))

/-- Model of `ExerciseListCreateAPIView` POST: `CreateModelMixin` validates the
body first, then `perform_create` resolves the workout with `get_workout`
(raising `NotFound` for a missing or foreign workout) and saves the
exercise with `workout=` the resolved workout; an omitted `weight` falls
back to the model default of 0.00. -/
def exercise_create (wdb : List WorkoutRec) (edb : List ExerciseRec)
    (workout_id : Nat) (requester : Nat) (d : ExerciseCreateData)
    (new_id : Nat) :
    List ExerciseRec × Option ApiError × Option ExerciseRec :=
  match validate_exercise_create d with
  | [] =>
      match get_workout wdb workout_id requester with
      | .error e => (edb, some e, none)
      | .ok w =>
          let ex : ExerciseRec :=
            { id := new_id, name := d.name, sets := d.sets, reps := d.reps,
              weight := d.weight.getD 0, workout := w.id }
          (edb ++ [ex], none, some ex)
  | errs => (edb, some (.validationFields errs), none)

/-- The validated data of an exercise PATCH: any subset of the writable
serializer fields `name`, `sets`, `reps`, `weight` (the primary key is
read-only and unknown keys are dropped by the serializer). -/
structure ExercisePatch where
  name : Option PyStr
  sets : Option Int
  reps : Option Int
  weight : Option Int
deriving DecidableEq

/-- Model of `ExerciseSerializer` field validation on a partial update: each
supplied field is checked against the same constraints as on create. -/
def validate_exercise_patch (p : ExercisePatch) : List (PyStr × PyStr) :=
  (match p.name with
   | none => []
   | some s =>
      (if s.length = 0 then
        [(ps "name", ps "This field may not be blank.")] else []) ++
      (if 30 < s.length then
        [(ps "name", ps "Ensure this field has no more than 30 characters.")] else [])) ++
  (match p.sets with
   | none => []
   | some n =>
      (if n < 1 then
        [(ps "sets", ps "Ensure this value is greater than or equal to 1.")] else []) ++
      (if 99 < n then
        [(ps "sets", ps "Ensure this value is less than or equal to 99.")] else [])) ++
  (match p.reps with
   | none => []
   | some n =>
      (if n < 1 then
        [(ps "reps", ps "Ensure this value is greater than or equal to 1.")] else []) ++
      (if 99 < n then
        [(ps "reps", ps "Ensure this value is less than or equal to 99.")] else [])) ++
  (match p.weight with
   | none => []
   | some w =>
      (if w < 0 then
        [(ps "weight", ps "Ensure this value is greater than or equal to 0.")] else []) ++
      (if 99999 < w then
        [(ps "weight", ps "Ensure that there are no more than 5 digits in total.")] else []))

/-- Model of `ExerciseSerializer.update`: the allowed set holds only
`weight` and `reps`; if the
validated data holds any other field the whole update raises a
`ValidationError` mapping each forbidden field to
`"This field cannot be updated."` before any attribute is touched;
otherwise exactly the supplied allowed fields are set and the instance is
saved. -/
def exercise_serializer_update (e : ExerciseRec) (p : ExercisePatch) :
    Except ApiError ExerciseRec :=
  let forbidden :=
    (if p.name.isSome then [ps "name"] else []) ++
    (if p.sets.isSome then [ps "sets"] else [])
  match forbidden with
  | [] =>
      .ok { e with reps := p.reps.getD e.reps, weight := p.weight.getD e.weight }
  | fs =>
      .error (.validationFields
        (fs.map (fun f => (f, ps "This field cannot be updated."))))

/-- Model of `ExerciseRetrieveUpdateDestroyAPIView` PATCH: `get_object` first
(`NotFound` short-circuits), then serializer field validation, then
`ExerciseSerializer.update`; the stored row is replaced on success. -/
def exercise_patch (wdb : List WorkoutRec) (edb : List ExerciseRec)
    (workout_id : Nat) (exercise_id : Nat) (requester : Nat)
    (p : ExercisePatch) : List ExerciseRec × Option ApiError :=
  match exercise_lookup wdb edb workout_id exercise_id requester with
  | .error e => (edb, some e)
  | .ok ex =>
      match validate_exercise_patch p with
      | [] =>
          match exercise_serializer_update ex p with
          | .error e => (edb, some e)
          | .ok ex2 => (edb.map (fun x => if x.id = ex.id then ex2 else x), none)
      | errs => (edb, some (.validationFields errs))

/-- Model of `ExerciseRetrieveUpdateDestroyAPIView` DELETE: `get_object` first
(`NotFound` short-circuits), then the row is deleted. -/
def exercise_destroy (wdb : List WorkoutRec) (edb : List ExerciseRec)
    (workout_id : Nat) (exercise_id : Nat) (requester : Nat) :
    List ExerciseRec × Option ApiError :=
  match exercise_lookup wdb edb workout_id exercise_id requester with
  | .error e => (edb, some e)
  | .ok ex => (edb.filter (fun x => x.id ≠ ex.id), none)

/-- Model of `UserSerializer.validate_username`: reject when a stored username
matches case-insensitively (`username__iexact`), otherwise return the
lowercased value. -/
def validate_username (db : List UserRec) (value : PyStr) :
    Except ApiError PyStr :=
  if db.any (fun u => pyLower u.username == pyLower value) then
    .error (.validationFields
      [(ps "username", ps "A user with that username already exists.")])
  else
    .ok (pyLower value)

/-- Model of the `UserSerializer` representation of a saved user: the
serializer fields are `id`, `username` and `password` with `password`
write-only, so the
response body carries exactly `id` and `username`. -/
def user_to_representation (u : UserRec) : List (PyStr × PyStr) :=
  [(ps "id", ps (toString u.id)), (ps "username", u.username)]

/-- Model of `CreateUserAPIView` POST (`UserSerializer.create`): validate the
username, build the unsaved user, run the external password strength
checker `validate_password(password, user)` (modelled by the parameter
`pwOk`, given the password and the candidate username; a keyed
`ValidationError` on rejection, before any save), then hash the password
and save — `User.save` lowercases the username once more before the row
is written.  Counter fields take the model defaults. -/
def user_create (pwOk : PyStr → PyStr → Bool) (hash : PyStr → PyStr)
    (db : List UserRec) (today : Nat) (username password : PyStr)
    (new_id : Nat) :
    List UserRec × Option ApiError × Option (List (PyStr × PyStr)) :=
  match validate_username db username with
  | .error e => (db, some e, none)
  | .ok uname =>
      if pwOk password uname then
        let u : UserRec :=
          { id := new_id, username := pyLower uname,
            passwordHash := hash password, protein_goal := 150,
            todays_protein := 0, protein_last_update := today }
        (db ++ [u], none, some (user_to_representation u))
      else
        (db, some (.validationFields
          [(ps "password", ps "This password is too weak.")]), none)

/-! Concrete fixtures used to instantiate the theorems below. -/

/-- A user whose counter was last updated on day 0 with 100 g logged. -/
def uFix : UserRec :=
  { id := 7, username := ps "alice", passwordHash := ps "x",
    protein_goal := 150, todays_protein := 100, protein_last_update := 0 }

/-- A user who already logged 499 g today (day 5). -/
def uFix499 : UserRec :=
  { id := 8, username := ps "bob", passwordHash := ps "x",
    protein_goal := 150, todays_protein := 499, protein_last_update := 5 }

/-- A workout owned by user 10. -/
def wFix : WorkoutRec := { id := 1, name := ps "legs", owner := 10 }

/-- An exercise under workout 1. -/
def eFix : ExerciseRec :=
  { id := 5, name := ps "squat", sets := 3, reps := 5, weight := 1000,
    workout := 1 }

/-- A valid exercise create body with the weight omitted. -/
def dFix : ExerciseCreateData :=
  { name := ps "Squat", sets := 3, reps := 5, weight := none }

/-- The record `exercise_create` builds from `dFix` under workout 1. -/
def exFix : ExerciseRec :=
  { id := 9, name := ps "Squat", sets := 3, reps := 5, weight := 0,
    workout := 1 }

/-- A patch touching the immutable `name` field as well as `reps`. -/
def pFix : ExercisePatch :=
  { name := some (ps "x"), sets := none, reps := some 3, weight := none }

/-- A protein PATCH whose add fails (amount 0) next to a goal change. -/
def ppFix : ProteinPatch := { protein_to_add := some (.jint 0), protein_goal := some 300 }

/-! Helper lemmas shared by the claim theorems. -/

/-- Packing a valid code point and reading it back is the identity. -/
theorem char_toNat_ofNat_of_valid {n : Nat} (h : n.isValidChar) :
    (Char.ofNat n).toNat = n := by
  simp only [Char.ofNat, dif_pos h, Char.ofNatAux, Char.toNat]
  simp [UInt32.toNat]

/-- ASCII lowercasing of a single character is idempotent. -/
theorem char_toLower_idem (c : Char) : c.toLower.toLower = c.toLower := by
  simp only [Char.toLower]
  by_cases h : c.toNat ≥ 65 ∧ c.toNat ≤ 90
  · rw [if_pos h]
    have hv : (c.toNat + 32).isValidChar := Or.inl (by omega)
    have ht : (Char.ofNat (c.toNat + 32)).toNat = c.toNat + 32 :=
      char_toNat_ofNat_of_valid hv
    rw [if_neg]
    omega
  · rw [if_neg h, if_neg h]

/-- Python `str.lower` is idempotent. -/
theorem pyLower_idem (s : PyStr) : pyLower (pyLower s) = pyLower s := by
  induction s with
  | nil => rfl
  | cons c t ih =>
      simp only [pyLower, List.map_cons, List.map_map] at *
      exact List.cons_eq_cons.mpr ⟨char_toLower_idem c, ih⟩

/-- The lazy reset never touches `protein_goal`. -/
theorem reset_fst_goal (today : Nat) (u : UserRec) :
    (reset_todays_protein today u).1.protein_goal = u.protein_goal := by
  by_cases h : u.protein_last_update = today <;>
    simp [reset_todays_protein, h]

/-- After the lazy reset the stamp is always today. -/
theorem reset_fst_last (today : Nat) (u : UserRec) :
    (reset_todays_protein today u).1.protein_last_update = today := by
  by_cases h : u.protein_last_update = today <;>
    simp [reset_todays_protein, h]

/-- C2: `add_protein` raises `ValidationError` on a non-positive amount
and on a sum above 500, leaving `todays_protein` unchanged in both failure
cases; otherwise it adds exactly the amount and persists the new value
(so reaching exactly 500 succeeds, one more unit fails). -/
theorem add_protein_contract (u : UserRec) (n : Int) :
    (n ≤ 0 →
      add_protein u n =
        (u, some (.validationMsg (ps "Protein amount must be greater than 0.")))) ∧
    (0 < n → 500 < u.todays_protein + n →
      add_protein u n =
        (u, some (.validationMsg (ps "Todays protein cannot be greater than 500.")))) ∧
    (0 < n → u.todays_protein + n ≤ 500 →
      add_protein u n =
        ({ u with todays_protein := u.todays_protein + n }, none)) := by
  refine ⟨fun h => ?_, fun h1 h2 => ?_, fun h1 h2 => ?_⟩
  · simp [add_protein, h]
  · simp [add_protein, show ¬ n ≤ 0 by omega, h2]
  · simp [add_protein, show ¬ n ≤ 0 by omega,
      show ¬ 500 < u.todays_protein + n by omega]

/-- Witness for C2 at the 500 boundary: adding 1 g at 499 g succeeds and
lands exactly on 500. -/
theorem add_protein_contract_witness :
    ((0 : Int) < 1 ∧ uFix499.todays_protein + 1 ≤ 500) ∧
    add_protein uFix499 1 =
      ({ uFix499 with todays_protein := 500 }, none) :=
  ⟨by decide, (add_protein_contract uFix499 1).2.2 (by decide) (by decide)⟩

/-- C4: the lazy reset zeroes the counter and stamps today, persisting
exactly those two fields, when the stored date differs from today; when
the dates match it is a no-op with no write; hence a second reset on the
same day never writes. -/
theorem reset_todays_protein_contract (today : Nat) (u : UserRec) :
    (u.protein_last_update ≠ today →
      reset_todays_protein today u =
        ({ u with todays_protein := 0, protein_last_update := today },
         some [ps "todays_protein", ps "protein_last_update"])) ∧
    (u.protein_last_update = today →
      reset_todays_protein today u = (u, none)) ∧
    reset_todays_protein today (reset_todays_protein today u).1 =
      ((reset_todays_protein today u).1, none) := by
  refine ⟨fun h => ?_, fun h => ?_, ?_⟩
  · simp [reset_todays_protein, h]
  · simp [reset_todays_protein, h]
  · by_cases h : u.protein_last_update = today <;>
      simp [reset_todays_protein, h]

/-- Witness for C4: a user last updated on day 0 is reset on day 1, and
the second reset that day performs no write. -/
theorem reset_todays_protein_contract_witness :
    uFix.protein_last_update ≠ 1 ∧
    reset_todays_protein 1 uFix =
      ({ uFix with todays_protein := 0, protein_last_update := 1 },
       some [ps "todays_protein", ps "protein_last_update"]) :=
  ⟨by decide, (reset_todays_protein_contract 1 uFix).1 (by decide)⟩

/-- C3 counterexample: a protein PATCH whose `protein_to_add` fails
validation (amount 0) can still leave persisted field changes, because
the lazy reset runs — and saves — before the failing add.  At `uFix`
(counter 100, stamped day 0) on day 1 the request fails yet the stored
record differs from the original: the counter was reset to 0 and the
stamp advanced, so the claim that no field is persisted is false. -/
theorem protein_patch_persists_reset_on_failed_add :
    (protein_patch_update 1 uFix ppFix).2.isSome = true ∧
    (protein_patch_update 1 uFix ppFix).1 ≠ uFix ∧
    (protein_patch_update 1 uFix ppFix).1.todays_protein ≠
      uFix.todays_protein := by decide

/-- C3 (amended): a protein PATCH whose `protein_to_add` fails validation
(non-numeric, non-positive, or breaking the 500 cap measured against the
post-reset counter) fails as a whole; `protein_goal` is never changed and
the persisted state is either the untouched original (non-numeric case,
before any reset) or exactly the post-reset state — the counter is never
increased.  The cap condition itself refers to the post-reset value,
which is the reset-before-add ordering. -/
theorem protein_patch_failed_add_contract (today : Nat) (u : UserRec)
    (raw : JsonVal) (goal : Option Int)
    (hfail : pyInt raw = none ∨
      ∃ n, pyInt raw = some n ∧
        (n ≤ 0 ∨ 500 < (reset_todays_protein today u).1.todays_protein + n)) :
    (protein_patch_update today u
      { protein_to_add := some raw, protein_goal := goal }).2.isSome = true ∧
    (protein_patch_update today u
      { protein_to_add := some raw, protein_goal := goal }).1.protein_goal =
      u.protein_goal ∧
    ((protein_patch_update today u
        { protein_to_add := some raw, protein_goal := goal }).1 = u ∨
      (protein_patch_update today u
        { protein_to_add := some raw, protein_goal := goal }).1 =
        (reset_todays_protein today u).1) := by
  rcases hfail with hnone | ⟨n, hn, hbad⟩
  · simp [protein_patch_update, hnone]
  · by_cases hn0 : n ≤ 0
    · simp [protein_patch_update, hn, add_protein, hn0, reset_fst_goal]
    · rcases hbad with hbad | hbad
      · exact absurd hbad hn0
      · simp [protein_patch_update, hn, add_protein, hn0, hbad,
          reset_fst_goal]

/-- Witness for the amended C3 at a concrete input: amount 0 on day 1. -/
theorem protein_patch_failed_add_contract_witness :
    (protein_patch_update 1 uFix ppFix).2.isSome = true ∧
    (protein_patch_update 1 uFix ppFix).1.protein_goal = uFix.protein_goal ∧
    ((protein_patch_update 1 uFix ppFix).1 = uFix ∨
      (protein_patch_update 1 uFix ppFix).1 =
        (reset_todays_protein 1 uFix).1) :=
  protein_patch_failed_add_contract 1 uFix (.jint 0) (some 300)
    (Or.inr ⟨0, by decide, Or.inl (by decide)⟩)

/-- On a user already stamped today, a goal outside `[1, 500]` makes the
serializer-side update fail while leaving the instance untouched. -/
theorem serializer_update_goal_fail (today : Nat) (v : UserRec) (g : Int)
    (hl : v.protein_last_update = today) (hg : g < 1 ∨ 500 < g) :
    (protein_serializer_update today v (some g)).1 = v ∧
    (protein_serializer_update today v (some g)).2.isSome = true := by
  rcases hg with hg | hg
  · simp [protein_serializer_update, reset_todays_protein, hl, hg]
  · simp [protein_serializer_update, reset_todays_protein, hl, hg,
      show ¬ g < 1 by omega]

/-- C10: when a protein PATCH carries a valid `protein_to_add` together
with an out-of-range `protein_goal`, the add is applied and persisted
first; the request then fails on the goal validation, but the increased
counter is not rolled back and the stored goal is unchanged. -/
theorem protein_patch_add_survives_goal_failure (today : Nat) (u : UserRec)
    (raw : JsonVal) (n g : Int) (hn : pyInt raw = some n) (hpos : 0 < n)
    (hcap : (reset_todays_protein today u).1.todays_protein + n ≤ 500)
    (hg : g < 1 ∨ 500 < g) :
    (protein_patch_update today u
      { protein_to_add := some raw, protein_goal := some g }).2.isSome = true ∧
    (protein_patch_update today u
      { protein_to_add := some raw, protein_goal := some g }).1.todays_protein =
      (reset_todays_protein today u).1.todays_protein + n ∧
    (protein_patch_update today u
      { protein_to_add := some raw, protein_goal := some g }).1.protein_goal =
      u.protein_goal := by
  have hgoal := reset_fst_goal today u
  have hlast := reset_fst_last today u
  have hn0 : ¬ n ≤ 0 := by omega
  have hcap2 : ¬ 500 < (reset_todays_protein today u).1.todays_protein + n := by
    omega
  have e1 : protein_patch_update today u
      { protein_to_add := some raw, protein_goal := some g } =
      protein_serializer_update today
        ({ (reset_todays_protein today u).1 with
            todays_protein := (reset_todays_protein today u).1.todays_protein + n })
        (some g) := by
    simp [protein_patch_update, hn, add_protein, hn0, hcap2]
  have h2 := serializer_update_goal_fail today
    ({ (reset_todays_protein today u).1 with
        todays_protein := (reset_todays_protein today u).1.todays_protein + n })
    g (by simpa using hlast) hg
  rw [e1, h2.1]
  exact ⟨h2.2, rfl, hgoal⟩

/-- Witness for C10: adding 50 g with goal 501 on day 1 fails the request
but the counter (reset to 0, then increased to 50) stays increased. -/
theorem protein_patch_add_survives_goal_failure_witness :
    (pyInt (.jint 50) = some 50 ∧ (0 : Int) < 50 ∧
      (reset_todays_protein 1 uFix).1.todays_protein + 50 ≤ 500 ∧
      ((501 : Int) < 1 ∨ (500 : Int) < 501)) ∧
    (protein_patch_update 1 uFix
      { protein_to_add := some (.jint 50), protein_goal := some 501 }).2.isSome
        = true ∧
    (protein_patch_update 1 uFix
      { protein_to_add := some (.jint 50),
        protein_goal := some 501 }).1.todays_protein =
      (reset_todays_protein 1 uFix).1.todays_protein + 50 ∧
    (protein_patch_update 1 uFix
      { protein_to_add := some (.jint 50),
        protein_goal := some 501 }).1.protein_goal = uFix.protein_goal :=
  ⟨⟨by decide, by decide, by decide, Or.inr (by decide)⟩,
    protein_patch_add_survives_goal_failure 1 uFix (.jint 50) 50 501
      (by decide) (by decide) (by decide) (Or.inr (by decide))⟩

/-- Inverting a successful workout resolution: the returned workout is a
stored row with the requested id, owned by the requester. -/
theorem get_workout_ok {wdb : List WorkoutRec} {wid req : Nat}
    {w : WorkoutRec} (h : get_workout wdb wid req = .ok w) :
    w ∈ wdb ∧ w.id = wid ∧ w.owner = req := by
  unfold get_workout at h
  split at h
  next hf => cases h
  next x hf =>
    split at h
    next ho => cases h
    next ho =>
      cases h
      exact ⟨List.mem_of_find?_eq_some hf,
        by simpa using List.find?_some hf,
        by simpa using ho⟩

/-- Inverting a successful exercise resolution: the workout chain exists,
is owned by the requester, and the exercise belongs to that workout. -/
theorem exercise_lookup_ok {wdb : List WorkoutRec} {edb : List ExerciseRec}
    {wid eid req : Nat} {ex : ExerciseRec}
    (h : exercise_lookup wdb edb wid eid req = .ok ex) :
    ∃ w, w ∈ wdb ∧ w.id = wid ∧ w.owner = req ∧
      ex ∈ edb ∧ ex.workout = w.id := by
  unfold exercise_lookup at h
  split at h
  next e hg => cases h
  next w hg =>
    split at h
    next hf => cases h
    next e2 hf =>
      cases h
      obtain ⟨hmem, hid, how⟩ := get_workout_ok hg
      have he2 := List.mem_filter.mp (List.mem_of_find?_eq_some hf)
      exact ⟨w, hmem, hid, how, he2.1, by simpa using he2.2⟩

/-- C1: whenever the workout named in the URL is missing or owned by a
different user — merged into the single hypothesis that no stored workout
both has that id and belongs to the requester — every operation under
that workout id resolves to the one fixed `NotFound` outcome of its view
(the same value in both cases, so the response cannot distinguish them)
and the stores are returned unchanged; and conversely an exercise is only
ever returned when the resolved workout exists with the requested id and
is owned by the requester. -/
theorem ownership_merged_not_found (wdb : List WorkoutRec)
    (edb : List ExerciseRec) (workout_id exercise_id requester new_id : Nat)
    (d : ExerciseCreateData) (p : ExercisePatch)
    (h : ∀ w ∈ wdb, w.id = workout_id → w.owner ≠ requester) :
    get_workout wdb workout_id requester =
      .error (.notFound (ps "Workout not found")) ∧
    workout_destroy wdb workout_id requester =
      (wdb, some (.notFound (ps "Not found."))) ∧
    exercise_list wdb edb workout_id requester =
      .error (.notFound (ps "Workout not found")) ∧
    (validate_exercise_create d = [] →
      exercise_create wdb edb workout_id requester d new_id =
        (edb, some (.notFound (ps "Workout not found")), none)) ∧
    exercise_lookup wdb edb workout_id exercise_id requester =
      .error (.notFound (ps "Workout not found")) ∧
    exercise_patch wdb edb workout_id exercise_id requester p =
      (edb, some (.notFound (ps "Workout not found"))) ∧
    exercise_destroy wdb edb workout_id exercise_id requester =
      (edb, some (.notFound (ps "Workout not found"))) ∧
    (∀ (wdb2 : List WorkoutRec) (edb2 : List ExerciseRec)
        (wid2 eid2 req2 : Nat) (ex : ExerciseRec),
      exercise_lookup wdb2 edb2 wid2 eid2 req2 = .ok ex →
      ∃ w, w ∈ wdb2 ∧ w.id = wid2 ∧ w.owner = req2 ∧ ex.workout = w.id) := by
  have hgw : get_workout wdb workout_id requester =
      .error (.notFound (ps "Workout not found")) := by
    cases hf : wdb.find? (fun w => w.id == workout_id) with
    | none => simp [get_workout, hf]
    | some w =>
        have hid : w.id = workout_id := by simpa using List.find?_some hf
        have hne : w.owner ≠ requester :=
          h w (List.mem_of_find?_eq_some hf) hid
        simp [get_workout, hf, hne]
  have hdf : (wdb.filter (fun w => w.owner == requester)).find?
      (fun w => w.id == workout_id) = none := by
    rw [List.find?_eq_none]
    intro x hx
    rcases List.mem_filter.mp hx with ⟨hxm, hxo⟩
    simp only [beq_iff_eq]
    intro hxid
    exact h x hxm hxid (by simpa using hxo)
  refine ⟨hgw, ?_, ?_, fun hv => ?_, ?_, ?_, ?_, ?_⟩
  · simp [workout_destroy, hdf]
  · simp [exercise_list, hgw]
  · simp [exercise_create, hv, hgw]
  · simp [exercise_lookup, hgw]
  · simp [exercise_patch, exercise_lookup, hgw]
  · simp [exercise_destroy, exercise_lookup, hgw]
  · intro wdb2 edb2 wid2 eid2 req2 ex hok
    obtain ⟨w, hw1, hw2, hw3, _, hw5⟩ := exercise_lookup_ok hok
    exact ⟨w, hw1, hw2, hw3, hw5⟩

/-- Witness for C1: user 20 addresses workout 1, which exists but belongs
to user 10 — every operation yields the fixed `NotFound` of its view and
leaves the stores untouched. -/
theorem ownership_merged_not_found_witness :
    (∀ w ∈ [wFix], w.id = 1 → w.owner ≠ 20) ∧
    (get_workout [wFix] 1 20 =
      .error (.notFound (ps "Workout not found")) ∧
    workout_destroy [wFix] 1 20 =
      ([wFix], some (.notFound (ps "Not found."))) ∧
    exercise_list [wFix] [eFix] 1 20 =
      .error (.notFound (ps "Workout not found")) ∧
    (validate_exercise_create dFix = [] →
      exercise_create [wFix] [eFix] 1 20 dFix 9 =
        ([eFix], some (.notFound (ps "Workout not found")), none)) ∧
    exercise_lookup [wFix] [eFix] 1 5 20 =
      .error (.notFound (ps "Workout not found")) ∧
    exercise_patch [wFix] [eFix] 1 5 20 pFix =
      ([eFix], some (.notFound (ps "Workout not found"))) ∧
    exercise_destroy [wFix] [eFix] 1 5 20 =
      ([eFix], some (.notFound (ps "Workout not found"))) ∧
    (∀ (wdb2 : List WorkoutRec) (edb2 : List ExerciseRec)
        (wid2 eid2 req2 : Nat) (ex : ExerciseRec),
      exercise_lookup wdb2 edb2 wid2 eid2 req2 = .ok ex →
      ∃ w, w ∈ wdb2 ∧ w.id = wid2 ∧ w.owner = req2 ∧ ex.workout = w.id)) :=
  ⟨by decide,
    ownership_merged_not_found [wFix] [eFix] 1 5 20 9 dFix pFix (by decide)⟩

/-- A one-element conditional list is empty exactly when the condition
fails. -/
theorem ite_singleton_eq_nil {α : Type} (P : Prop) [Decidable P] (x : α) :
    ((if P then [x] else []) = []) ↔ ¬P := by
  split <;> simp_all

/-- C5: a partial update whose validated data touches any field outside
`{reps, weight}` (through the serializer those can only be `name` or
`sets`) fails as a whole with a per-field map sending exactly the
forbidden supplied fields to the not-updatable message, and nothing is
applied; when only `reps` and/or `weight` are supplied, exactly the
supplied ones change and `name` and `sets` are untouched. -/
theorem exercise_update_only_reps_weight (e : ExerciseRec)
    (p : ExercisePatch) :
    ((p.name.isSome ∨ p.sets.isSome) →
      ∃ l, exercise_serializer_update e p = .error (.validationFields l) ∧
        ∀ f v, (f, v) ∈ l ↔
          (v = ps "This field cannot be updated." ∧
            ((f = ps "name" ∧ p.name.isSome) ∨
             (f = ps "sets" ∧ p.sets.isSome)))) ∧
    (p.name = none → p.sets = none →
      exercise_serializer_update e p =
        .ok { e with reps := p.reps.getD e.reps,
                     weight := p.weight.getD e.weight }) := by
  constructor
  · intro hsup
    rcases hn : p.name with _ | a <;> rcases hs : p.sets with _ | b
    · rw [hn, hs] at hsup; simp at hsup
    · refine ⟨[(ps "sets", ps "This field cannot be updated.")],
        by simp [exercise_serializer_update, hn, hs], fun f v => by
          simp [hn, hs]; tauto⟩
    · refine ⟨[(ps "name", ps "This field cannot be updated.")],
        by simp [exercise_serializer_update, hn, hs], fun f v => by
          simp [hn, hs]; tauto⟩
    · refine ⟨[(ps "name", ps "This field cannot be updated."),
        (ps "sets", ps "This field cannot be updated.")],
        by simp [exercise_serializer_update, hn, hs], fun f v => by
          simp [hn, hs]; tauto⟩
  · intro hn hs
    simp [exercise_serializer_update, hn, hs]

/-- Witness for C5: a patch supplying `name` (next to `reps`) is rejected
with the not-updatable map. -/
theorem exercise_update_only_reps_weight_witness :
    (pFix.name.isSome ∨ pFix.sets.isSome) ∧
    ∃ l, exercise_serializer_update eFix pFix = .error (.validationFields l) ∧
      ∀ f v, (f, v) ∈ l ↔
        (v = ps "This field cannot be updated." ∧
          ((f = ps "name" ∧ pFix.name.isSome) ∨
           (f = ps "sets" ∧ pFix.sets.isSome))) :=
  ⟨by decide, (exercise_update_only_reps_weight eFix pFix).1 (by decide)⟩

/-- Creating an account whose lowercased username collides with a stored
row fails with the duplicate-username error and persists nothing. -/
theorem user_create_dup (db : List UserRec) (u : UserRec) (v : PyStr)
    (hmem : u ∈ db) (heq : pyLower u.username = pyLower v) :
    ∀ (pwOk2 : PyStr → PyStr → Bool) (hash2 : PyStr → PyStr)
      (t2 : Nat) (pw2 : PyStr) (nid2 : Nat),
      user_create pwOk2 hash2 db t2 v pw2 nid2 =
        (db, some (.validationFields
          [(ps "username", ps "A user with that username already exists.")]),
         none) := by
  intro pwOk2 hash2 t2 pw2 nid2
  have hany : db.any (fun u => pyLower u.username == pyLower v) = true := by
    rw [List.any_eq_true]
    exact ⟨u, hmem, by rw [beq_iff_eq]; exact heq⟩
  simp [user_create, validate_username, hany]

/-- C6: after a successful account creation the stored username is the
lowercased requested one (and is a fixed point of lowercasing), and a
second creation under any case variant of the same username fails with
the duplicate-username error while persisting nothing. -/
theorem username_case_insensitive_unique
    (pwOk : PyStr → PyStr → Bool) (hash : PyStr → PyStr)
    (db db2 : List UserRec) (today : Nat) (uname pw : PyStr) (new_id : Nat)
    (resp : List (PyStr × PyStr))
    (hcreate : user_create pwOk hash db today uname pw new_id =
      (db2, none, some resp)) :
    (∃ u2 : UserRec, db2 = db ++ [u2] ∧ u2.username = pyLower uname ∧
      pyLower u2.username = u2.username) ∧
    (∀ (pwOk2 : PyStr → PyStr → Bool) (hash2 : PyStr → PyStr)
        (t2 : Nat) (v pw2 : PyStr) (nid2 : Nat), pyLower v = pyLower uname →
      user_create pwOk2 hash2 db2 t2 v pw2 nid2 =
        (db2, some (.validationFields
          [(ps "username", ps "A user with that username already exists.")]),
         none)) := by
  by_cases hdup : db.any (fun u => pyLower u.username == pyLower uname)
  · simp [user_create, validate_username, hdup] at hcreate
  · by_cases hpw : pwOk pw (pyLower uname)
    · have hstep : user_create pwOk hash db today uname pw new_id =
          (db ++ [{ id := new_id, username := pyLower (pyLower uname),
                    passwordHash := hash pw, protein_goal := 150,
                    todays_protein := 0, protein_last_update := today }],
            none,
            some [(ps "id", ps (toString new_id)),
                  (ps "username", pyLower (pyLower uname))]) := by
        simp [user_create, validate_username, hdup, hpw,
          user_to_representation]
      rw [hstep] at hcreate
      simp only [Prod.mk.injEq, Option.some.injEq, true_and] at hcreate
      obtain ⟨hdb, -⟩ := hcreate
      subst hdb
      refine ⟨⟨_, rfl, by rw [pyLower_idem],
        by rw [pyLower_idem, pyLower_idem]⟩, ?_⟩
      intro pwOk2 hash2 t2 v pw2 nid2 hv
      refine user_create_dup _ _ _
        (List.mem_append_right _ (List.mem_singleton_self _)) ?_
        pwOk2 hash2 t2 pw2 nid2
      show pyLower (pyLower (pyLower uname)) = pyLower v
      rw [pyLower_idem, pyLower_idem, hv]
    · simp [user_create, validate_username, hdup, hpw] at hcreate

/-- Witness for C6: creating `Alice` on an empty store, then showing the
conclusion at that concrete creation. -/
theorem username_case_insensitive_unique_witness :
    user_create (fun _ _ => true) (fun p => p) [] 3 (ps "Alice") (ps "pw") 1 =
      ([{ id := 1, username := ps "alice", passwordHash := ps "pw",
          protein_goal := 150, todays_protein := 0,
          protein_last_update := 3 }], none,
        some [(ps "id", ps "1"), (ps "username", ps "alice")]) ∧
    ((∃ u2 : UserRec,
      [{ id := 1, username := ps "alice", passwordHash := ps "pw",
         protein_goal := 150, todays_protein := 0,
         protein_last_update := 3 }] = ([] : List UserRec) ++ [u2] ∧
      u2.username = pyLower (ps "Alice") ∧
      pyLower u2.username = u2.username) ∧
    (∀ (pwOk2 : PyStr → PyStr → Bool) (hash2 : PyStr → PyStr)
        (t2 : Nat) (v pw2 : PyStr) (nid2 : Nat),
      pyLower v = pyLower (ps "Alice") →
      user_create pwOk2 hash2
        [{ id := 1, username := ps "alice", passwordHash := ps "pw",
           protein_goal := 150, todays_protein := 0,
           protein_last_update := 3 }] t2 v pw2 nid2 =
        ([{ id := 1, username := ps "alice", passwordHash := ps "pw",
            protein_goal := 150, todays_protein := 0,
            protein_last_update := 3 }],
         some (.validationFields
          [(ps "username", ps "A user with that username already exists.")]),
         none))) :=
  ⟨by decide,
    username_case_insensitive_unique (fun _ _ => true) (fun p => p) []
      [{ id := 1, username := ps "alice", passwordHash := ps "pw",
         protein_goal := 150, todays_protein := 0,
         protein_last_update := 3 }] 3 (ps "Alice") (ps "pw") 1
      [(ps "id", ps "1"), (ps "username", ps "alice")] (by decide)⟩

/-- C7: exercise create validation passes exactly when the name has 1 to
30 characters, `sets` and `reps` are in `[1, 99]`, and a supplied weight
is between 0 and 999.99 (0 to 99999 hundredths, two fractional digits by
representation); and a create that omits the weight stores exactly 0. -/
theorem exercise_create_validation (d : ExerciseCreateData) :
    (validate_exercise_create d = [] ↔
      (1 ≤ d.name.length ∧ d.name.length ≤ 30 ∧
       1 ≤ d.sets ∧ d.sets ≤ 99 ∧ 1 ≤ d.reps ∧ d.reps ≤ 99 ∧
       ∀ c, d.weight = some c → 0 ≤ c ∧ c ≤ 99999)) ∧
    (∀ (wdb : List WorkoutRec) (edb : List ExerciseRec)
        (wid req nid : Nat) (ex : ExerciseRec), d.weight = none →
      (exercise_create wdb edb wid req d nid).2.2 = some ex →
      ex.weight = 0) := by
  constructor
  · cases hw : d.weight with
    | none =>
        simp [validate_exercise_create, hw, List.append_eq_nil,
          ite_singleton_eq_nil]
        constructor
        · rintro ⟨h1, h⟩
          have h0 := List.length_pos.mpr h1
          omega
        · rintro ⟨h1, h⟩
          exact ⟨List.length_pos.mp (by omega), by omega⟩
    | some c =>
        simp [validate_exercise_create, hw, List.append_eq_nil,
          ite_singleton_eq_nil]
        constructor
        · rintro ⟨h1, h⟩
          have h0 := List.length_pos.mpr h1
          omega
        · rintro ⟨h1, h⟩
          exact ⟨List.length_pos.mp (by omega), by omega⟩
  · intro wdb edb wid req nid ex hw hok
    cases hv : validate_exercise_create d with
    | cons a l => simp [exercise_create, hv] at hok
    | nil =>
        cases hg : get_workout wdb wid req with
        | error err => simp [exercise_create, hv, hg] at hok
        | ok w =>
            simp only [exercise_create, hv, hg, Option.some.injEq] at hok
            subst hok
            simp [hw]

/-- Witness for C7: `dFix` (weight omitted) validates, and creating it
under the owned workout stores weight exactly 0. -/
theorem exercise_create_validation_witness :
    dFix.weight = none ∧
    (exercise_create [wFix] [] 1 10 dFix 9).2.2 = some exFix ∧
    exFix.weight = 0 :=
  ⟨rfl, by decide,
    (exercise_create_validation dFix).2 [wFix] [] 1 10 9 exFix rfl (by decide)⟩

/-- C8: a password the external strength checker rejects fails the whole
create with an error keyed on `password` and leaves the store unchanged;
a successful create answers with exactly the persisted id and username —
no `password` key (and hence neither the raw nor the hashed value) is in
the response. -/
theorem user_create_password_contract
    (pwOk : PyStr → PyStr → Bool) (hash : PyStr → PyStr)
    (db : List UserRec) (today : Nat) (uname pw : PyStr) (new_id : Nat) :
    ((∀ u ∈ db, pyLower u.username ≠ pyLower uname) →
      pwOk pw (pyLower uname) = false →
      user_create pwOk hash db today uname pw new_id =
        (db, some (.validationFields
          [(ps "password", ps "This password is too weak.")]), none)) ∧
    (∀ (db2 : List UserRec) (resp : List (PyStr × PyStr)),
      user_create pwOk hash db today uname pw new_id =
        (db2, none, some resp) →
      resp = [(ps "id", ps (toString new_id)),
              (ps "username", pyLower uname)] ∧
      ps "password" ∉ resp.map Prod.fst) := by
  constructor
  · intro hnup hpw
    have hany : db.any (fun u => pyLower u.username == pyLower uname)
        = false := by
      rw [List.any_eq_false]
      intro u hu
      simpa using hnup u hu
    simp [user_create, validate_username, hany, hpw]
  · intro db2 resp hcr
    by_cases hdup : db.any (fun u => pyLower u.username == pyLower uname)
    · simp [user_create, validate_username, hdup] at hcr
    · by_cases hpw : pwOk pw (pyLower uname)
      · have hstep : user_create pwOk hash db today uname pw new_id =
            (db ++ [{ id := new_id, username := pyLower (pyLower uname),
                      passwordHash := hash pw, protein_goal := 150,
                      todays_protein := 0, protein_last_update := today }],
              none,
              some [(ps "id", ps (toString new_id)),
                    (ps "username", pyLower (pyLower uname))]) := by
          simp [user_create, validate_username, hdup, hpw,
            user_to_representation]
        rw [hstep] at hcr
        simp only [Prod.mk.injEq, Option.some.injEq, true_and] at hcr
        obtain ⟨-, hresp⟩ := hcr
        subst hresp
        refine ⟨by rw [pyLower_idem], ?_⟩
        intro hmem
        simp only [List.map_cons, List.map_nil, List.mem_cons,
          List.not_mem_nil, or_false] at hmem
        rcases hmem with hmem | hmem <;> exact absurd hmem (by decide)
      · simp [user_create, validate_username, hdup, hpw] at hcr

/-- Witness for C8: the checker that rejects everything makes the create
fail keyed on `password` with the store unchanged. -/
theorem user_create_password_contract_witness :
    ((∀ u ∈ ([] : List UserRec),
        pyLower u.username ≠ pyLower (ps "Bob")) ∧
      (fun (_ _ : PyStr) => false) (ps "pw") (pyLower (ps "Bob")) = false) ∧
    user_create (fun _ _ => false) (fun p => p) [] 3 (ps "Bob") (ps "pw") 2 =
      ([], some (.validationFields
        [(ps "password", ps "This password is too weak.")]), none) :=
  ⟨⟨by decide, rfl⟩,
    (user_create_password_contract (fun _ _ => false) (fun p => p) [] 3
      (ps "Bob") (ps "pw") 2).1 (by decide) rfl⟩

/-- C9: an owner supplied in a workout-create body never influences the
result (the serializer drops the read-only field), a created workout is
owned by the requester, and the workout list holds exactly the stored
workouts owned by the requester. -/
theorem workout_scope_and_owner (db : List WorkoutRec) (requester : Nat)
    (name : PyStr) (body_owner : Option Nat) (new_id : Nat) :
    workout_create db requester name body_owner new_id =
      workout_create db requester name none new_id ∧
    (∀ (db2 : List WorkoutRec) (err : Option ApiError) (w : WorkoutRec),
      workout_create db requester name body_owner new_id =
        (db2, err, some w) → w.owner = requester ∧ db2 = db ++ [w]) ∧
    (∀ w : WorkoutRec, w ∈ workout_list db requester ↔
      w ∈ db ∧ w.owner = requester) := by
  refine ⟨rfl, ?_, ?_⟩
  · intro db2 err w hcr
    cases hv : validate_workout_name name with
    | cons a l => simp [workout_create, hv] at hcr
    | nil =>
        simp only [workout_create, hv, Prod.mk.injEq,
          Option.some.injEq] at hcr
        obtain ⟨h1, -, h3⟩ := hcr
        subst h3
        subst h1
        exact ⟨rfl, rfl⟩
  · intro w
    simp [workout_list, List.mem_filter]

/-- Witness for C9: user 10 creates a workout while the body claims
owner 99; the stored owner is 10. -/
theorem workout_scope_and_owner_witness :
    workout_create [wFix] 10 (ps "push") (some 99) 2 =
      ([wFix, { id := 2, name := ps "push", owner := 10 }], none,
        some { id := 2, name := ps "push", owner := 10 }) ∧
    ({ id := 2, name := ps "push", owner := 10 } : WorkoutRec).owner = 10 ∧
    [wFix, { id := 2, name := ps "push", owner := 10 }] =
      [wFix] ++ [{ id := 2, name := ps "push", owner := 10 }] :=
  ⟨by decide,
    (workout_scope_and_owner [wFix] 10 (ps "push") (some 99) 2).2.1
      [wFix, { id := 2, name := ps "push", owner := 10 }] none
      { id := 2, name := ps "push", owner := 10 } (by decide)⟩

end GymTracker
